import Mathlib

/-!
# VideoStove CLI — verification of the media-assembly core

Shallow embedding of the composition/duration-reconciliation pipeline of
`run_main.py` (VideoCreator and its helpers) and of the render entry point
in `videostove_cli/render.py`.  Durations are rationals (the Python code
uses floats only as exact decimal literals and probed values passed
through arithmetic; we model the arithmetic exactly over ℚ).  External
ffmpeg invocations are modelled as the structured argument lists the code
builds, plus explicit success/failure booleans for the engine outcome.
-/

namespace VideoStove

/-- One argument of an external-engine (ffmpeg) command line.
`opt` is a literal flag string written in the source, `val` a
non-flag value (a file path, codec name, preset name, ...),
`q` a numeric argument rendered with `str(...)` in the source,
`i` an integer argument, `filterGraph` the `-filter_complex`
audio graph of the final mux (volume of the main track and, when
background music is mixed in, its volume), and `concatFilter n` the
`-filter_complex` re-encoding concat graph over `n` inputs. -/
inductive Arg where
  | opt (v : String)
  | val (v : String)
  | q (v : ℚ)
  | i (v : ℤ)
  | filterGraph (main_audio_vol : ℚ) (bg_vol : Option ℚ)
  | concatFilter (n : Nat)
deriving DecidableEq, Repr

/-- The slice of the global `CONFIG` dictionary (run_main.py lines 51-114)
read by the pipeline functions verified here. -/
structure Config where
  image_duration : ℚ
  main_audio_vol : ℚ
  bg_vol : ℚ
  crossfade_duration : ℚ
  use_crossfade : Bool
  use_overlay : Bool
  use_bg_music : Bool
  use_gpu : Bool
  use_fade_in : Bool
  use_fade_out : Bool
  overlay_opacity : ℚ
  crf : ℚ
  preset : String
  overlay_mode : String
  extended_zoom_enabled : Bool
  extended_zoom_direction : String
  extended_zoom_amount : ℚ
  animation_style : String
  gpu_mode : String
  gpu_encoders : List String
deriving DecidableEq, Repr

/-- `DEFAULT_CONFIG` (run_main.py lines 51-114), restricted to the fields of
`Config`.  `gpu_encoders` starts absent/empty; `gpu_mode` defaults to
"auto" via `CONFIG.get("gpu_mode", "auto")`. -/
def DEFAULT_CONFIG : Config where
  image_duration := 8
  main_audio_vol := 1
  bg_vol := 15/100
  crossfade_duration := 6/10
  use_crossfade := true
  use_overlay := false
  use_bg_music := true
  use_gpu := true
  use_fade_in := true
  use_fade_out := true
  overlay_opacity := 1/2
  crf := 22
  preset := "fast"
  overlay_mode := "simple"
  extended_zoom_enabled := false
  extended_zoom_direction := "in"
  extended_zoom_amount := 30
  animation_style := "Sequential Motion"
  gpu_mode := "auto"
  gpu_encoders := []

/-- `MOTION_DIRECTIONS` (run_main.py line 119). -/
def MOTION_DIRECTIONS : List String := ["right", "left", "down", "up"]

/-- Python `str.strip()`: drop leading and trailing whitespace. -/
def pyStrip (s : String) : String :=
  ⟨((s.data.dropWhile Char.isWhitespace).reverse.dropWhile Char.isWhitespace).reverse⟩

/-- Python `str.lower()` (ASCII case folding, which is all the callers use). -/
def pyLower (s : String) : String := ⟨s.data.map Char.toLower⟩

/-- `pick_motion_direction` (run_main.py lines 121-142).  The
`random.choice` call of the "Random Motion" branch is external
nondeterminism; it is modelled by the extra oracle argument `rnd`
indexing uniformly into the six-element choice list. -/
def pick_motion_direction (rnd : Nat) (animation_style : String)
    (i : Nat) (total_images : Nat) : String :=
  let style := pyStrip (if animation_style = "" then "Sequential Motion" else animation_style)
  if style = "Zoom In Only" ∨ style = "Zoom In" then "zoom_in"
  else if style = "Zoom Out Only" ∨ style = "Zoom Out" then "zoom_out"
  else if style = "Pan Only" ∨ style = "Pan" then "right"
  else if style = "No Animation" ∨ style = "None" then "no_motion"
  else if style = "Random Motion" ∨ style = "Random" then
    (MOTION_DIRECTIONS ++ ["zoom_in", "zoom_out"]).getD (rnd % 6) "right"
  else
    -- Default: Sequential Motion
    if total_images ≤ 1 ∨ i = 0 then "zoom_in"
    else if i = total_images - 1 then "zoom_out"
    else MOTION_DIRECTIONS.getD ((i - 1) % MOTION_DIRECTIONS.length) "right"

/-- Which video filter chain `create_motion_clip` selects
(run_main.py lines 744-843), one constructor per branch of the source.
`pan dir` records which crop expression is emitted (`dir` is one of the
four known pan directions, after the unknown-direction default). -/
inductive MotionFilter where
  | extendedZoom (zoom_direction : String)
  | noMotion
  | zoomIn
  | zoomOut
  | pan (dir : String)
deriving DecidableEq, Repr

/-- The engine request `create_motion_clip` assembles for one still image:
the duration actually used (also the `-t` trim and the fade-out anchor),
the selected filter, whether the two warning logs fired, and the fade
flags appended at lines 845-848. -/
structure MotionClipPlan where
  durationUsed : ℚ
  filter : MotionFilter
  warned_empty : Bool
  warned_unknown : Bool
  fadeIn : Bool
  fadeOut : Bool
deriving DecidableEq, Repr

/-- `VideoCreator.create_motion_clip` (run_main.py lines 705-861), as the
pure construction of the engine request.  `image_exists` stands for the
`os.path.exists(image_path)` check at line 713 (`none` = the source
returns `False`).  Line 710 overwrites the `duration` argument with
`CONFIG["image_duration"]` before any use. -/
def create_motion_clip (cfg : Config) (image_exists : Bool) (direction : String)
    (duration : ℚ) (is_first is_last : Bool) : Option MotionClipPlan :=
  -- line 710: FORCE USE OF CONFIGURED DURATION - ignore any overrides
  let _ := duration
  let duration := cfg.image_duration
  if ¬image_exists then none
  else
    -- lines 717-720: safety check, fix empty directions
    let warned_empty := pyStrip direction = ""
    let direction := if pyStrip direction = "" then "right" else direction
    let fadeIn := cfg.use_fade_in && is_first
    let fadeOut := cfg.use_fade_out && is_last
    if cfg.extended_zoom_enabled then
      -- lines 746-810: extended zoom ignores the pan direction entirely
      some { durationUsed := duration, filter := .extendedZoom cfg.extended_zoom_direction,
             warned_empty, warned_unknown := false, fadeIn, fadeOut }
    else if direction = "no_motion" then
      some { durationUsed := duration, filter := .noMotion,
             warned_empty, warned_unknown := false, fadeIn, fadeOut }
    else if direction = "zoom_in" then
      some { durationUsed := duration, filter := .zoomIn,
             warned_empty, warned_unknown := false, fadeIn, fadeOut }
    else if direction = "zoom_out" then
      some { durationUsed := duration, filter := .zoomOut,
             warned_empty, warned_unknown := false, fadeIn, fadeOut }
    else
      -- lines 824-843: pan branch; normalize, then default unknowns to right
      let d := pyLower (pyStrip direction)
      if d = "right" ∨ d = "left" ∨ d = "down" ∨ d = "up" then
        some { durationUsed := duration, filter := .pan d,
               warned_empty, warned_unknown := false, fadeIn, fadeOut }
      else
        some { durationUsed := duration, filter := .pan "right",
               warned_empty, warned_unknown := true, fadeIn, fadeOut }

/-- One crossfade step of `apply_crossfade_transitions`
(run_main.py lines 884-903): the probed duration of the running result
and the next clip's duration give the xfade offset; the engine's xfade
produces a clip that plays the running result up to `offset` and then the
whole next clip.  The output-duration equation `offset + next` is the
external engine's xfade contract (spec §6), modelled from the spec. -/
def crossfade_step (crossfade_duration cur next : ℚ) : ℚ × ℚ :=
  let offset := max 0 (cur - crossfade_duration)
  (offset, offset + next)

/-- Duration of the running crossfade result after folding `rest` onto a
first clip of duration `first` (run_main.py lines 872-924). -/
def crossfade_chain_duration (d first : ℚ) (rest : List ℚ) : ℚ :=
  rest.foldl (fun cur next => (crossfade_step d cur next).2) first

/-- The sequence of xfade offsets issued while folding the clip list
(the `offset` computed at run_main.py line 887 for each step). -/
def crossfade_offsets (d first : ℚ) : List ℚ → List ℚ
  | [] => []
  | next :: rest =>
    let s := crossfade_step d first next
    s.1 :: crossfade_offsets d s.2 rest

/-- Result of `apply_crossfade_transitions`: a single clip is returned by
`shutil.copy2` with no engine invocation; several clips produce the
sequential chain. -/
inductive CrossfadeResult where
  | copied
  | chained (offsets : List ℚ) (finalDuration : ℚ)
deriving DecidableEq, Repr

/-- `VideoCreator.apply_crossfade_transitions` (run_main.py lines 863-941)
over the clip durations.  Empty input returns `False` (`none` here);
one clip short-circuits to a plain file copy (line 868-870). -/
def apply_crossfade_transitions (d : ℚ) : List ℚ → Option CrossfadeResult
  | [] => none
  | [_] => some .copied
  | first :: rest =>
    some (.chained (crossfade_offsets d first rest) (crossfade_chain_duration d first rest))

/-- The engine request `apply_overlay` builds (run_main.py lines 967-994):
blend mode and opacity from `CONFIG`, the hard trim `-t duration`, the
infinitely stream-looped overlay input, and (screen-blend only, line 977)
the stream-looped master input. -/
structure OverlayCmd where
  mode : String
  opacity : ℚ
  trim : ℚ
  overlayStreamLooped : Bool
  masterStreamLooped : Bool
deriving DecidableEq, Repr

/-- What `apply_overlay` leaves at `output_path`: either a plain
`shutil.copy2` of the base clip, or the composited result of the engine
request. -/
inductive OverlayOutcome where
  | copiedBase
  | composited (cmd : OverlayCmd)
deriving DecidableEq, Repr

/-- `VideoCreator.apply_overlay` (run_main.py lines 943-1000).
`overlay_exists` is the `os.path.exists(overlay_video)` test at line 945;
`engine_ok` the outcome of `run_ffmpeg` at line 996.  The returned `Bool`
is the source's return value, which is `True` on every path. -/
def apply_overlay (cfg : Config) (overlay_exists engine_ok : Bool)
    (duration : ℚ) : OverlayOutcome × Bool :=
  if ¬overlay_exists then (.copiedBase, true)
  else
    let cmd : OverlayCmd :=
      { mode := cfg.overlay_mode, opacity := cfg.overlay_opacity, trim := duration,
        overlayStreamLooped := true,
        masterStreamLooped := cfg.overlay_mode = "screen_blend" }
    if engine_ok then (.composited cmd, true)
    else
      -- lines 996-999: overlay failed, fall back to the unmodified base clip
      (.copiedBase, true)

/-- First `-t` argument of a command (the hard output trim).  Each command
built here passes `-t` at most once. -/
def extract_trim : List Arg → Option ℚ
  | .opt "-t" :: .q v :: _ => some v
  | _ :: rest => extract_trim rest
  | [] => none

/-- First `-stream_loop` argument of a command (`-1` = repeat forever). -/
def extract_stream_loop : List Arg → Option ℤ
  | .opt "-stream_loop" :: .i v :: _ => some v
  | _ :: rest => extract_stream_loop rest
  | [] => none

/-- Modelled from the spec: the external engine's hard-trim contract
(§6 capability (d) and the final-mux contract of §4.6) — an output with
trim `-t t` plays `min(naturalDuration, t)`; without `-t` it plays its
natural duration.  The engine itself is outside the repository. -/
def mux_output_duration (natural : ℚ) (cmd : List Arg) : ℚ :=
  match extract_trim cmd with
  | some t => min natural t
  | none => natural

/-- The slideshow loop-fit command (run_main.py lines 1233-1236): the
cycle is stream-looped forever (`-stream_loop -1`) and hard-trimmed to
the audio duration. -/
def slideshow_loop_cmd (cycle out : String) (audio_duration : ℚ) : List Arg :=
  [.opt "ffmpeg", .opt "-y", .opt "-stream_loop", .i (-1), .opt "-i", .val cycle,
   .opt "-c", .val "copy", .opt "-t", .q audio_duration, .val out]

/-- The montage loop-fit command (run_main.py lines 1753-1761, same shape
at lines 1601-1613): `loops_needed = math.ceil(remaining_time /
cycle_duration)` extra repeats minus one are requested from the engine's
native stream-repeat, and the result is hard-trimmed to
`remaining_time`. -/
def montage_loop_cmd (cycle_duration remaining_time : ℚ) (base out : String) : List Arg :=
  let loops_needed : ℤ := ⌈remaining_time / cycle_duration⌉
  [.opt "ffmpeg", .opt "-y", .opt "-stream_loop", .i (loops_needed - 1), .opt "-i", .val base,
   .opt "-c", .val "copy", .opt "-t", .q remaining_time, .val out]

/-- `get_gpu_encoder_settings` (run_main.py lines 301-348).  The
`'AMD VCE' in gpu` style substring tests are `pyContains`. -/
def pyContains (needle hay : String) : Bool := decide (needle.data <:+: hay.data)

/-- Encoder argument block selected by `get_gpu_encoder_settings`
(run_main.py lines 301-348) from the config's gpu mode and the detected
encoder list. -/
def get_gpu_encoder_settings (cfg : Config) : List Arg :=
  if ¬cfg.use_gpu ∨ cfg.gpu_mode = "cpu" then
    [.opt "-c:v", .val "libx264", .opt "-preset", .val "fast", .opt "-crf", .val "22"]
  else if cfg.gpu_mode = "nvidia" then
    [.opt "-c:v", .val "h264_nvenc", .opt "-preset", .val "fast", .opt "-b:v", .val "8M"]
  else if cfg.gpu_mode = "amd" then
    [.opt "-c:v", .val "h264_amf", .opt "-quality", .val "speed", .opt "-rc", .val "cbr",
     .opt "-b:v", .val "8M"]
  else if cfg.gpu_mode = "intel" then
    [.opt "-c:v", .val "h264_qsv", .opt "-preset", .val "fast", .opt "-b:v", .val "8M"]
  else if cfg.gpu_mode = "auto" ∧ cfg.gpu_encoders.any (pyContains "AMD VCE") then
    [.opt "-c:v", .val "h264_amf", .opt "-quality", .val "speed", .opt "-rc", .val "cbr",
     .opt "-b:v", .val "8M"]
  else if cfg.gpu_mode = "auto" ∧ cfg.gpu_encoders.any (pyContains "NVIDIA") then
    [.opt "-c:v", .val "h264_nvenc", .opt "-preset", .val "fast", .opt "-b:v", .val "8M"]
  else if cfg.gpu_mode = "auto" ∧ cfg.gpu_encoders.any (pyContains "Intel") then
    [.opt "-c:v", .val "h264_qsv", .opt "-preset", .val "fast", .opt "-b:v", .val "8M"]
  else
    [.opt "-c:v", .val "h264_nvenc", .opt "-preset", .val "fast", .opt "-b:v", .val "8M"]

/-- The slideshow final mux command (run_main.py lines 1269-1274):
video stream-copied, audio encoded, output hard-trimmed to the audio
duration. -/
def slideshow_final_cmd (master final_audio out : String) (audio_duration : ℚ) : List Arg :=
  [.opt "ffmpeg", .opt "-y", .opt "-i", .val master, .opt "-i", .val final_audio,
   .opt "-c:v", .val "copy", .opt "-c:a", .val "aac", .opt "-b:a", .val "192k",
   .opt "-map", .val "0:v:0", .opt "-map", .val "1:a:0", .opt "-t", .q audio_duration,
   .val out]

/-- The montage final mux command (run_main.py lines 1846-1873), built
up from the master video, processed audio and optional background
music (the `if CONFIG["use_bg_music"] and bg_music` test at 1856). -/
def montage_final_cmd (cfg : Config) (master processed_audio : String)
    (bg_music : Option String) (audio_duration : ℚ) (out : String) : List Arg :=
  let base : List Arg :=
    [.opt "ffmpeg", .opt "-y", .opt "-i", .val master, .opt "-i", .val processed_audio]
  let withBg := match (if cfg.use_bg_music then bg_music else none) with
    | some bg =>
        base ++ [.opt "-stream_loop", .i (-1), .opt "-i", .val bg,
                 .opt "-filter_complex", .filterGraph cfg.main_audio_vol (some cfg.bg_vol),
                 .opt "-map", .val "0:v:0", .opt "-map", .val "[a_out]"]
    | none =>
        base ++ [.opt "-filter_complex", .filterGraph cfg.main_audio_vol none,
                 .opt "-map", .val "0:v:0", .opt "-map", .val "[a_main]"]
  withBg ++ [.opt "-c:v", .val "copy", .opt "-c:a", .val "aac", .opt "-b:a", .val "192k",
             .opt "-t", .q audio_duration, .val out]

/-- The videos-only final mux command (run_main.py lines 1413-1434):
the `-t audio_duration` trim is appended (line 1428) before the encoder
settings; video is re-encoded in this mode. -/
def videos_only_final_cmd (cfg : Config) (final_video main_audio : String)
    (bg_music : Option String) (audio_duration : ℚ) (out : String) : List Arg :=
  let base : List Arg :=
    [.opt "ffmpeg", .opt "-y", .opt "-i", .val final_video, .opt "-i", .val main_audio]
  let withAudio := match (if cfg.use_bg_music then bg_music else none) with
    | some bg =>
        base ++ [.opt "-stream_loop", .i (-1), .opt "-i", .val bg,
                 .opt "-filter_complex", .filterGraph cfg.main_audio_vol (some cfg.bg_vol),
                 .opt "-map", .val "0:v", .opt "-map", .val "[a_out]"]
    | none =>
        base ++ [.opt "-filter_complex", .filterGraph cfg.main_audio_vol none,
                 .opt "-map", .val "0:v", .opt "-map", .val "[a_out]"]
  let encoder :=
    if cfg.use_gpu && !cfg.gpu_encoders.isEmpty then get_gpu_encoder_settings cfg
    else [.opt "-c:v", .val "libx264", .opt "-preset", .val cfg.preset, .opt "-crf", .q cfg.crf]
  withAudio ++ [.opt "-t", .q audio_duration] ++ encoder
    ++ [.opt "-c:a", .val "aac", .opt "-b:a", .val "192k", .val out]

/-- `build_concat_stream_copy_cmd` (run_main.py lines 408-426): the
lossless concat-demuxer join.  `duration` is truthy-checked in the
source (`if duration:`); callers pass `None` or a positive duration. -/
def build_concat_stream_copy_cmd (concat_file out : String) (duration : Option ℚ) : List Arg :=
  [.opt "ffmpeg", .opt "-y", .opt "-f", .val "concat", .opt "-safe", .val "0",
   .opt "-i", .val concat_file]
  ++ (match duration with
      | some dur => [.opt "-t", .q dur]
      | none => [])
  ++ [.opt "-c", .val "copy", .val out]

/-- `build_concat_fallback_cmd` (run_main.py lines 428-456): the
re-encoding `filter_complex` concat join used when the demuxer join
fails; a single input degenerates to a stream copy. -/
def build_concat_fallback_cmd (cfg : Config) (file_list : List String) (out : String)
    (duration : Option ℚ) : List Arg :=
  [.opt "ffmpeg", .opt "-y"]
  ++ (file_list.flatMap fun p => [.opt "-i", .val p])
  ++ (if file_list.length = 1 then [.opt "-c", .val "copy"]
      else [.opt "-filter_complex", .concatFilter file_list.length,
            .opt "-map", .val "[outv]", .opt "-map", .val "[outa]"]
           ++ get_gpu_encoder_settings cfg)
  ++ (match duration with
      | some dur => [.opt "-t", .q dur]
      | none => [])
  ++ [.val out]

/-- Outcome of one cycle-concatenation stage: lossless stream-copy join,
re-encoding `filter_complex` fallback join, or stage failure. -/
inductive ConcatOutcome where
  | streamCopied
  | reencoded
  | failed
deriving DecidableEq, Repr

/-- Slideshow cycle concatenation (run_main.py lines 1201-1208): on
stream-copy failure the `filter_complex` fallback is attempted before
giving up. -/
def slideshow_concat_step (stream_copy_ok fallback_ok : Bool) : ConcatOutcome :=
  if stream_copy_ok then .streamCopied
  else if fallback_ok then .reencoded
  else .failed

/-- Montage cycle concatenation (run_main.py lines 1573-1580): same
stream-copy-then-fallback structure as the slideshow stage. -/
def montage_concat_step (stream_copy_ok fallback_ok : Bool) : ConcatOutcome :=
  if stream_copy_ok then .streamCopied
  else if fallback_ok then .reencoded
  else .failed

/-- Videos-only concatenation (run_main.py lines 1379-1382): a
stream-copy failure returns `False` immediately; no fallback is built or
attempted, whatever `fallback_ok` would have been. -/
def videos_only_concat_step (stream_copy_ok fallback_ok : Bool) : ConcatOutcome :=
  let _ := fallback_ok
  if stream_copy_ok then .streamCopied
  else .failed

/-- One caption cue as the `sentences` dictionaries of
`AutoCaptioner.generate_srt_file` carry it (keys `start`, `end`, `text`;
`end` is a Lean keyword so the field is named `stop`). -/
structure Cue where
  start : ℚ
  stop : ℚ
  text : String
deriving DecidableEq, Repr, Inhabited

/-- `min_gap` (run_main.py line 2152). -/
def min_gap : ℚ := 1/10

/-- The readability-gap pass of `generate_srt_file` (run_main.py lines
2273-2278): for each adjacent pair, when the existing gap is below
`g` AND strictly positive, the earlier cue's end is pulled back to
`later.start - g`; each iteration writes only index `i`, so the pass is
this structural recursion. -/
def enforce_min_gap (g : ℚ) : List Cue → List Cue
  | [] => []
  | [c] => [c]
  | c :: c2 :: rest =>
    let gap := c2.start - c.stop
    let c' := if gap < g ∧ 0 < gap then { c with stop := c2.start - g } else c
    c' :: enforce_min_gap g (c2 :: rest)

/-- The slice of the module-global `CONFIG` dictionary relevant to the
shared-mutable-state question: the `gpu_encoders` key written by GPU
detection (`none` = key absent) and the `project_type` key written by
`render_project`. -/
structure EngineConfigState where
  gpu_encoders : Option (List String)
  project_type : String
deriving DecidableEq, Repr

/-- `detect_gpu_acceleration` (run_main.py lines 248-299).  `probe` is
the outcome of running `ffmpeg -encoders`: `some found` = the run parsed
(lines 284/289 write the key, empty list included), `none` = timeout or
exception (lines 292-299 return `[]` without writing).  Returns the
updated global config and the returned encoder list. -/
def detect_gpu_acceleration (st : EngineConfigState) (probe : Option (List String)) :
    EngineConfigState × List String :=
  match probe with
  | some found => ({ st with gpu_encoders := some found }, found)
  | none => (st, [])

/-- `VideoCreator.__init__` (run_main.py line 525) runs GPU detection
against the module-global config. -/
def videoCreator_init (st : EngineConfigState) (probe : Option (List String)) :
    EngineConfigState × List String :=
  detect_gpu_acceleration st probe

/-- `render_project` configuring the engine (videostove_cli/render.py
lines 269-270): `vs.CONFIG.update(preset_config)` and the
`project_type` override write into the module-global dict in place. -/
def render_project_configure (st : EngineConfigState) (mode : String) : EngineConfigState :=
  { st with project_type := mode }

/-- Render start as `render_project` performs it (render.py lines
269-312): configure the shared global, then construct the
`VideoCreator`, whose `__init__` runs GPU detection. -/
def render_start (st : EngineConfigState) (mode : String) (probe : Option (List String)) :
    EngineConfigState × List String :=
  videoCreator_init (render_project_configure st mode) probe

/-! ## Theorems -/

/-- Under the default "Sequential Motion" style the string branches all
fail, leaving the index-based selection. -/
theorem pick_sequential_eq (rnd i n : Nat) :
    pick_motion_direction rnd "Sequential Motion" i n =
      (if n ≤ 1 ∨ i = 0 then "zoom_in"
       else if i = n - 1 then "zoom_out"
       else MOTION_DIRECTIONS.getD ((i - 1) % MOTION_DIRECTIONS.length) "right") := rfl

/-- C5: under the default Sequential animation style, index 0 of N gets
zoom-in, index N−1 gets zoom-out when N > 1, every middle index gets the
pan direction rotating through `MOTION_DIRECTIONS` in index order (hence
a pan), N = 5 yields exactly [zoom_in, right, left, down, zoom_out], and
N = 1 yields [zoom_in] alone. -/
theorem getD_mod_four_mem (k : Nat) :
    MOTION_DIRECTIONS.getD (k % 4) "right" ∈ MOTION_DIRECTIONS := by
  have h4 : k % 4 < 4 := Nat.mod_lt _ (by norm_num)
  set m := k % 4 with hm
  interval_cases m <;> decide

theorem C5_sequential_direction_policy :
    (∀ rnd n, 1 < n →
      pick_motion_direction rnd "Sequential Motion" 0 n = "zoom_in" ∧
      pick_motion_direction rnd "Sequential Motion" (n - 1) n = "zoom_out") ∧
    (∀ rnd n i, 0 < i → i + 1 < n →
      pick_motion_direction rnd "Sequential Motion" i n
        = MOTION_DIRECTIONS.getD ((i - 1) % 4) "right" ∧
      pick_motion_direction rnd "Sequential Motion" i n ∈ MOTION_DIRECTIONS) ∧
    (∀ rnd, (List.range 5).map (fun i => pick_motion_direction rnd "Sequential Motion" i 5)
      = ["zoom_in", "right", "left", "down", "zoom_out"]) ∧
    (∀ rnd, (List.range 1).map (fun i => pick_motion_direction rnd "Sequential Motion" i 1)
      = ["zoom_in"]) := by
  refine ⟨fun rnd n hn => ⟨?_, ?_⟩, fun rnd n i hi hin => ⟨?_, ?_⟩, fun rnd => ?_, fun rnd => ?_⟩
  · rw [pick_sequential_eq]
    simp
  · rw [pick_sequential_eq]
    have h1 : ¬(n ≤ 1 ∨ n - 1 = 0) := by omega
    rw [if_neg h1, if_pos rfl]
  · rw [pick_sequential_eq]
    have h1 : ¬(n ≤ 1 ∨ i = 0) := by omega
    have h2 : ¬(i = n - 1) := by omega
    rw [if_neg h1, if_neg h2]
    rfl
  · rw [pick_sequential_eq]
    have h1 : ¬(n ≤ 1 ∨ i = 0) := by omega
    have h2 : ¬(i = n - 1) := by omega
    rw [if_neg h1, if_neg h2]
    exact getD_mod_four_mem (i - 1)
  · simp [show List.range 5 = [0, 1, 2, 3, 4] from rfl, pick_sequential_eq, MOTION_DIRECTIONS]
  · simp [show List.range 1 = [0] from rfl, pick_sequential_eq]

/-- Witness for C5 at concrete inputs N = 5, i = 2. -/
theorem C5_sequential_direction_policy_witness :
    pick_motion_direction 0 "Sequential Motion" 0 5 = "zoom_in" ∧
    pick_motion_direction 0 "Sequential Motion" 2 5
      = MOTION_DIRECTIONS.getD ((2 - 1) % 4) "right" :=
  ⟨(C5_sequential_direction_policy.1 0 5 (by norm_num)).1,
   (C5_sequential_direction_policy.2.1 0 5 2 (by norm_num) (by norm_num)).1⟩

/-- C10: the duration the motion-clip builder actually uses is always
`CONFIG["image_duration"]` — the caller's duration argument is
overwritten at entry, so two calls differing only in that argument build
the same request. -/
theorem C10_duration_argument_ignored (cfg : Config) (ie : Bool) (dir : String)
    (d1 d2 : ℚ) (f l : Bool) :
    (create_motion_clip cfg ie dir d1 f l).map MotionClipPlan.durationUsed
      = (if ie then some cfg.image_duration else none) ∧
    create_motion_clip cfg ie dir d1 f l = create_motion_clip cfg ie dir d2 f l := by
  constructor
  · cases ie <;> simp only [create_motion_clip] <;> split_ifs <;> simp_all
  · rfl

/-- C9 counterexample: with extended zoom enabled (a reachable
configuration), the unknown non-empty direction "diagonal" is not
normalized to the right-pan and records no warning — the extended-zoom
branch (run_main.py 746-810) ignores the direction string entirely, so
the unknown-direction warning at 838-841 never fires. -/
theorem C9_counterexample :
    create_motion_clip { DEFAULT_CONFIG with extended_zoom_enabled := true } true
        "diagonal" 3 false false
      = some { durationUsed := 8, filter := .extendedZoom "in",
               warned_empty := false, warned_unknown := false,
               fadeIn := false, fadeOut := false } ∧
    MotionFilter.extendedZoom "in" ≠ MotionFilter.pan "right" := by
  constructor
  · decide
  · decide

/-- C9 amended: an unknown or empty direction string never aborts the
build — a request with the configured image duration is produced in
every case.  On the normal path (extended zoom disabled) the direction
is normalized to the default right-pan with a recorded warning; with
extended zoom enabled the direction string is ignored entirely — the
extended-zoom filter is used and no unknown-direction warning is
recorded (only the empty-direction warning, which runs before the
branch, can fire). -/
theorem C9_direction_leniency_amended (cfg : Config) (dir : String) (dur : ℚ) (f l : Bool)
    (hunk : pyStrip dir = "" ∨
      (dir ≠ "no_motion" ∧ dir ≠ "zoom_in" ∧ dir ≠ "zoom_out" ∧
       pyLower (pyStrip dir) ≠ "right" ∧ pyLower (pyStrip dir) ≠ "left" ∧
       pyLower (pyStrip dir) ≠ "down" ∧ pyLower (pyStrip dir) ≠ "up")) :
    (cfg.extended_zoom_enabled = false →
      ∃ plan, create_motion_clip cfg true dir dur f l = some plan ∧
        plan.filter = .pan "right" ∧
        (plan.warned_empty = true ∨ plan.warned_unknown = true) ∧
        plan.durationUsed = cfg.image_duration) ∧
    (cfg.extended_zoom_enabled = true →
      ∃ plan, create_motion_clip cfg true dir dur f l = some plan ∧
        plan.filter = .extendedZoom cfg.extended_zoom_direction ∧
        plan.warned_unknown = false ∧
        plan.durationUsed = cfg.image_duration) := by
  constructor
  · intro hez
    by_cases hempty : pyStrip dir = ""
    · have e1 : pyLower (pyStrip "right") = "right" := by decide
      have hcreate : create_motion_clip cfg true dir dur f l = some
          { durationUsed := cfg.image_duration, filter := .pan "right",
            warned_empty := true, warned_unknown := false,
            fadeIn := cfg.use_fade_in && f, fadeOut := cfg.use_fade_out && l } := by
        simp [create_motion_clip, hempty, hez, e1]
      exact ⟨_, hcreate, rfl, Or.inl rfl, rfl⟩
    · rcases hunk with h | ⟨h1, h2, h3, h4, h5, h6, h7⟩
      · exact absurd h hempty
      · have hcreate : create_motion_clip cfg true dir dur f l = some
            { durationUsed := cfg.image_duration, filter := .pan "right",
              warned_empty := false, warned_unknown := true,
              fadeIn := cfg.use_fade_in && f, fadeOut := cfg.use_fade_out && l } := by
          simp [create_motion_clip, hempty, hez, h1, h2, h3, h4, h5, h6, h7]
        exact ⟨_, hcreate, rfl, Or.inr rfl, rfl⟩
  · intro hez
    by_cases hempty : pyStrip dir = ""
    · have hcreate : create_motion_clip cfg true dir dur f l = some
          { durationUsed := cfg.image_duration,
            filter := .extendedZoom cfg.extended_zoom_direction,
            warned_empty := true, warned_unknown := false,
            fadeIn := cfg.use_fade_in && f, fadeOut := cfg.use_fade_out && l } := by
        simp [create_motion_clip, hempty, hez]
      exact ⟨_, hcreate, rfl, rfl, rfl⟩
    · have hcreate : create_motion_clip cfg true dir dur f l = some
          { durationUsed := cfg.image_duration,
            filter := .extendedZoom cfg.extended_zoom_direction,
            warned_empty := false, warned_unknown := false,
            fadeIn := cfg.use_fade_in && f, fadeOut := cfg.use_fade_out && l } := by
        simp [create_motion_clip, hempty, hez]
      exact ⟨_, hcreate, rfl, rfl, rfl⟩

/-- Witness for C9 amended: the unknown direction "diagonal" on the
default configuration (normal path: right-pan with a warning) and on
the same configuration with extended zoom enabled (extended-zoom
filter, no warning). -/
theorem C9_direction_leniency_amended_witness :
    (∃ plan, create_motion_clip DEFAULT_CONFIG true "diagonal" 3 false false = some plan ∧
      plan.filter = .pan "right" ∧
      (plan.warned_empty = true ∨ plan.warned_unknown = true) ∧
      plan.durationUsed = DEFAULT_CONFIG.image_duration) ∧
    (∃ plan, create_motion_clip { DEFAULT_CONFIG with extended_zoom_enabled := true } true
        "diagonal" 3 false false = some plan ∧
      plan.filter = .extendedZoom
        ({ DEFAULT_CONFIG with extended_zoom_enabled := true } : Config).extended_zoom_direction ∧
      plan.warned_unknown = false ∧
      plan.durationUsed
        = ({ DEFAULT_CONFIG with extended_zoom_enabled := true } : Config).image_duration) := by
  have hunk : pyStrip "diagonal" = "" ∨
      ("diagonal" ≠ "no_motion" ∧ "diagonal" ≠ "zoom_in" ∧ "diagonal" ≠ "zoom_out" ∧
       pyLower (pyStrip "diagonal") ≠ "right" ∧ pyLower (pyStrip "diagonal") ≠ "left" ∧
       pyLower (pyStrip "diagonal") ≠ "down" ∧ pyLower (pyStrip "diagonal") ≠ "up") :=
    Or.inr (by refine ⟨?_, ?_, ?_, ?_, ?_, ?_, ?_⟩ <;> decide)
  exact ⟨(C9_direction_leniency_amended DEFAULT_CONFIG "diagonal" 3 false false hunk).1 rfl,
    (C9_direction_leniency_amended { DEFAULT_CONFIG with extended_zoom_enabled := true }
      "diagonal" 3 false false hunk).2 rfl⟩

/-- C4: overlay compositing failure (engine error) or a missing overlay
file yields the unmodified base clip as the stage output, and the
compositor returns success on every path — failure never escapes it. -/
theorem C4_overlay_failure_returns_base (cfg : Config) (oe ok : Bool) (dur : ℚ) :
    apply_overlay cfg oe false dur = (.copiedBase, true) ∧
    apply_overlay cfg false ok dur = (.copiedBase, true) ∧
    (apply_overlay cfg oe ok dur).2 = true := by
  cases oe <;> cases ok <;> simp [apply_overlay]

theorem crossfade_chain_duration_nil (d c : ℚ) : crossfade_chain_duration d c [] = c := rfl

theorem crossfade_chain_duration_cons (d c x : ℚ) (xs : List ℚ) :
    crossfade_chain_duration d c (x :: xs)
      = crossfade_chain_duration d (max 0 (c - d) + x) xs := rfl

theorem crossfade_offsets_eq (d : ℚ) (rest : List ℚ) : ∀ cur,
    crossfade_offsets d cur rest
      = (List.range rest.length).map
          (fun i => max 0 (crossfade_chain_duration d cur (rest.take i) - d)) := by
  induction rest with
  | nil => intro cur; rfl
  | cons x xs ih =>
    intro cur
    show max 0 (cur - d) :: crossfade_offsets d (max 0 (cur - d) + x) xs = _
    rw [ih, List.length_cons, List.range_succ_eq_map]
    simp only [List.map_cons, List.map_map]
    congr 1

theorem crossfade_chain_duration_sum (d : ℚ) (rest : List ℚ) : ∀ cur, 0 ≤ d → d ≤ cur →
    (∀ x ∈ rest, d ≤ x) →
    crossfade_chain_duration d cur rest = cur + rest.sum - rest.length * d := by
  induction rest with
  | nil => intro cur _ _ _; simp [crossfade_chain_duration]
  | cons x xs ih =>
    intro cur hd hcur hall
    have hx : d ≤ x := hall x (List.mem_cons_self x xs)
    rw [crossfade_chain_duration_cons, max_eq_right (sub_nonneg.mpr hcur),
      ih (cur - d + x) hd (by linarith) (fun y hy => hall y (List.mem_cons_of_mem _ hy)),
      List.sum_cons, List.length_cons]
    push_cast
    ring

/-- C3: a single clip short-circuits to a plain file copy; a longer list
is folded strictly pairwise, each step's overlap offset being
`max(0, accumulatedDuration − d)` where the accumulated duration is the
chain duration of the prefix already consumed; and when every clip lasts
at least `d` (and `d ≥ 0`) the final duration is
`sum(durations) − (N−1)·d`. -/
theorem C3_crossfade_pairwise_chain :
    (∀ d c, apply_crossfade_transitions d [c] = some .copied) ∧
    (∀ d first rest, rest ≠ [] →
      apply_crossfade_transitions d (first :: rest)
        = some (.chained (crossfade_offsets d first rest)
            (crossfade_chain_duration d first rest))) ∧
    (∀ d first rest, crossfade_offsets d first rest
        = (List.range rest.length).map
            (fun i => max 0 (crossfade_chain_duration d first (rest.take i) - d))) ∧
    (∀ d first rest, 0 ≤ d → d ≤ first → (∀ x ∈ rest, d ≤ x) →
      crossfade_chain_duration d first rest
        = first + rest.sum - rest.length * d) := by
  refine ⟨fun d c => rfl, fun d first rest hne => ?_,
    fun d first rest => crossfade_offsets_eq d rest first,
    fun d first rest => crossfade_chain_duration_sum d rest first⟩
  cases rest with
  | nil => exact absurd rfl hne
  | cons y ys => rfl

/-- Witness for C3: three 8-second clips with a 0.6-second crossfade
chain to 8 + 16 − 2·0.6 = 22.8 seconds, and a single clip is copied. -/
theorem C3_crossfade_pairwise_chain_witness :
    apply_crossfade_transitions (3/5) [(8 : ℚ)] = some .copied ∧
    crossfade_chain_duration (3/5) 8 [8, 8]
      = 8 + ([8, 8] : List ℚ).sum - (([8, 8] : List ℚ).length : ℚ) * (3/5) ∧
    crossfade_chain_duration (3/5) 8 [8, 8] = 114/5 := by
  refine ⟨C3_crossfade_pairwise_chain.1 (3/5) 8,
    C3_crossfade_pairwise_chain.2.2.2 (3/5) 8 [8, 8] (by norm_num) (by norm_num)
      (fun x hx => ?_), by norm_num [crossfade_chain_duration, crossfade_step]⟩
  simp at hx
  rw [hx]
  norm_num

/-- C1: every one of the three final mux commands passes the main audio
duration as the `-t` hard-trim, so under the engine's trim contract the
muxed output never plays longer than the main audio. -/
theorem C1_final_mux_trims_to_audio (cfg : Config)
    (master fa out v ma : String) (bg : Option String) (a natural : ℚ) :
    extract_trim (slideshow_final_cmd master fa out a) = some a ∧
    extract_trim (montage_final_cmd cfg master fa bg a out) = some a ∧
    extract_trim (videos_only_final_cmd cfg v ma bg a out) = some a ∧
    mux_output_duration natural (slideshow_final_cmd master fa out a) ≤ a ∧
    mux_output_duration natural (montage_final_cmd cfg master fa bg a out) ≤ a ∧
    mux_output_duration natural (videos_only_final_cmd cfg v ma bg a out) ≤ a := by
  have h1 : extract_trim (slideshow_final_cmd master fa out a) = some a := by
    simp [slideshow_final_cmd, extract_trim]
  have h2 : extract_trim (montage_final_cmd cfg master fa bg a out) = some a := by
    rcases hbg : (if cfg.use_bg_music then bg else none) with _ | b <;>
      simp [montage_final_cmd, hbg, extract_trim]
  have h3 : extract_trim (videos_only_final_cmd cfg v ma bg a out) = some a := by
    rcases hbg : (if cfg.use_bg_music then bg else none) with _ | b <;>
      simp [videos_only_final_cmd, hbg, extract_trim]
  exact ⟨h1, h2, h3,
    by simp [mux_output_duration, h1],
    by simp [mux_output_duration, h2],
    by simp [mux_output_duration, h3]⟩

/-- C2 counterexample: the slideshow loop-fit command requests unbounded
stream repetition (`-stream_loop -1`), not `ceil(target/cycle) − 1`
repeats, even at a target (20 s) strictly above the cycle duration
(12 s), where the claim requires a loop count of ⌈20/12⌉ − 1 = 1. -/
theorem C2_counterexample :
    extract_stream_loop (slideshow_loop_cmd "slideshow_one_cycle.mp4" "temp_looped.mp4" 20)
      = some (-1) ∧
    (⌈(20 : ℚ) / 12⌉ - 1 : ℤ) = 1 ∧ (12 : ℚ) < 20 ∧ (-1 : ℤ) ≠ 1 := by
  refine ⟨by simp [slideshow_loop_cmd, extract_stream_loop], ?_, by norm_num, by norm_num⟩
  have : (⌈(20 : ℚ) / 12⌉ : ℤ) = 2 := by
    rw [Int.ceil_eq_iff]
    constructor <;> norm_num
  omega

/-- C2 amended: the montage loop-fit does exactly what the claim says —
`-stream_loop ⌈r/c⌉ − 1` plus a hard trim to `r`, with zero extra
repeats when `r ≤ c`; the slideshow loop-fit instead always requests
unbounded repetition (`-stream_loop -1`) with a hard trim to the audio
duration. -/
theorem C2_amended_loop_fit (c r a : ℚ) (base out cyc lout : String)
    (hc : 0 < c) (hr : 0 < r) :
    extract_stream_loop (montage_loop_cmd c r base out) = some (⌈r / c⌉ - 1) ∧
    extract_trim (montage_loop_cmd c r base out) = some r ∧
    (r ≤ c → (⌈r / c⌉ - 1 : ℤ) = 0) ∧
    extract_stream_loop (slideshow_loop_cmd cyc lout a) = some (-1) ∧
    extract_trim (slideshow_loop_cmd cyc lout a) = some a := by
  refine ⟨by simp [montage_loop_cmd, extract_stream_loop],
    by simp [montage_loop_cmd, extract_trim], fun hrc => ?_,
    by simp [slideshow_loop_cmd, extract_stream_loop],
    by simp [slideshow_loop_cmd, extract_trim]⟩
  have h1 : ⌈r / c⌉ ≤ (1 : ℤ) := by
    rw [Int.ceil_le]
    push_cast
    exact (div_le_one hc).mpr hrc
  have h2 : (0 : ℤ) < ⌈r / c⌉ := Int.ceil_pos.mpr (div_pos hr hc)
  omega

/-- Witness for C2 amended at cycle 12 s and remaining time 8 s. -/
theorem C2_amended_loop_fit_witness :
    extract_stream_loop (montage_loop_cmd 12 8 "cycle.mp4" "master.mp4")
      = some (⌈(8 : ℚ) / 12⌉ - 1) ∧ (⌈(8 : ℚ) / 12⌉ - 1 : ℤ) = 0 := by
  have h := C2_amended_loop_fit 12 8 20 "cycle.mp4" "master.mp4" "c.mp4" "o.mp4"
    (by norm_num) (by norm_num)
  exact ⟨h.1, h.2.2.1 (by norm_num)⟩

/-- C6 counterexample: in the videos-only pipeline a stream-copy
concatenation failure fails the stage outright even though the
re-encoding fallback would have succeeded — no fallback is attempted. -/
theorem C6_counterexample :
    videos_only_concat_step false true = ConcatOutcome.failed ∧
    slideshow_concat_step false true = ConcatOutcome.reencoded := by
  exact ⟨rfl, rfl⟩

/-- C6 amended: the slideshow and montage cycle-concatenation stages
automatically attempt the re-encoding fallback on stream-copy failure
and fail only when the fallback also fails; the videos-only stage fails
as soon as stream copy fails, for any fallback outcome.  The fallback
command really is a re-encode (a `filter_complex` concat graph) while
the primary command is a pure stream copy. -/
theorem C6_amended_concat_fallback (cfg : Config) (f1 f2 cf out : String) :
    (∀ s f : Bool,
      (slideshow_concat_step s f = .failed ↔ s = false ∧ f = false) ∧
      (montage_concat_step s f = .failed ↔ s = false ∧ f = false) ∧
      (videos_only_concat_step s f = .failed ↔ s = false)) ∧
    Arg.concatFilter 2 ∈ build_concat_fallback_cmd cfg [f1, f2] out none ∧
    Arg.val "copy" ∈ build_concat_stream_copy_cmd cf out none := by
  refine ⟨fun s f => ?_, ?_, ?_⟩
  · cases s <;> cases f <;>
      simp [slideshow_concat_step, montage_concat_step, videos_only_concat_step]
  · simp [build_concat_fallback_cmd]
  · simp [build_concat_stream_copy_cmd]

/-- C7 counterexample: two cues that touch (gap exactly 0, which is
below the 0.1 s minimum) pass through the gap-enforcement pass
unchanged — the earlier cue's end is not shrunk. -/
theorem C7_counterexample :
    enforce_min_gap min_gap [⟨0, 5, "a"⟩, ⟨5, 8, "b"⟩] = [⟨0, 5, "a"⟩, ⟨5, 8, "b"⟩] ∧
    (5 : ℚ) - 5 < min_gap := by
  constructor
  · norm_num [enforce_min_gap, min_gap]
  · norm_num [min_gap]

theorem enforce_min_gap_cons_cons (g : ℚ) (c c2 : Cue) (rest : List Cue) :
    enforce_min_gap g (c :: c2 :: rest)
      = (if c2.start - c.stop < g ∧ 0 < c2.start - c.stop
         then { c with stop := c2.start - g } else c) :: enforce_min_gap g (c2 :: rest) := rfl

theorem enforce_min_gap_length (g : ℚ) : ∀ cs : List Cue,
    (enforce_min_gap g cs).length = cs.length := by
  intro cs
  induction cs with
  | nil => rfl
  | cons c tail ih =>
    cases tail with
    | nil => rfl
    | cons c2 rest =>
      rw [enforce_min_gap_cons_cons, List.length_cons, List.length_cons, ih]

theorem enforce_min_gap_start_text (g : ℚ) : ∀ (cs : List Cue) (i : Nat),
    ((enforce_min_gap g cs).getD i default).start = (cs.getD i default).start ∧
    ((enforce_min_gap g cs).getD i default).text = (cs.getD i default).text := by
  intro cs
  induction cs with
  | nil => intro i; exact ⟨rfl, rfl⟩
  | cons c tail ih =>
    intro i
    cases tail with
    | nil =>
      cases i with
      | zero => exact ⟨rfl, rfl⟩
      | succ j => exact ⟨rfl, rfl⟩
    | cons c2 rest =>
      cases i with
      | zero =>
        rw [enforce_min_gap_cons_cons]
        simp only [List.getD_cons_zero]
        constructor <;> · split_ifs <;> rfl
      | succ j =>
        rw [enforce_min_gap_cons_cons]
        simpa only [List.getD_cons_succ] using ih j

theorem enforce_min_gap_stop_eq (g : ℚ) : ∀ (cs : List Cue) (i : Nat), i + 1 < cs.length →
    ((enforce_min_gap g cs).getD i default).stop =
      (if (cs.getD (i + 1) default).start - (cs.getD i default).stop < g ∧
          0 < (cs.getD (i + 1) default).start - (cs.getD i default).stop
       then (cs.getD (i + 1) default).start - g
       else (cs.getD i default).stop) := by
  intro cs
  induction cs with
  | nil => intro i h; simp at h
  | cons c tail ih =>
    intro i h
    cases tail with
    | nil => simp at h
    | cons c2 rest =>
      cases i with
      | zero =>
        rw [enforce_min_gap_cons_cons]
        simp only [List.getD_cons_zero, List.getD_cons_succ]
        split_ifs <;> rfl
      | succ j =>
        have h' : j + 1 < (c2 :: rest).length := by
          simpa using Nat.lt_of_succ_lt_succ h
        rw [enforce_min_gap_cons_cons]
        simpa only [List.getD_cons_succ] using ih j h'

theorem enforce_min_gap_last_stop (g : ℚ) : ∀ cs : List Cue, cs ≠ [] →
    ((enforce_min_gap g cs).getD (cs.length - 1) default).stop
      = (cs.getD (cs.length - 1) default).stop := by
  intro cs
  induction cs with
  | nil => intro h; exact absurd rfl h
  | cons c tail ih =>
    intro _
    cases tail with
    | nil => rfl
    | cons c2 rest =>
      have hlen : (c :: c2 :: rest).length - 1 = (c2 :: rest).length - 1 + 1 := by
        simp
      rw [hlen, enforce_min_gap_cons_cons]
      simpa only [List.getD_cons_succ] using ih (by simp)

/-- C7 amended: the gap pass preserves cue count, never moves any cue's
start (or text), shrinks the earlier cue's end to `later.start − g`
exactly when the existing gap is strictly positive and below `g`, leaves
the earlier cue's end unchanged otherwise — in particular touching or
overlapping cues (gap ≤ 0) are NOT adjusted — and never touches the last
cue's end. -/
theorem C7_amended_gap_enforcement (g : ℚ) (cs : List Cue) :
    (enforce_min_gap g cs).length = cs.length ∧
    (∀ i, ((enforce_min_gap g cs).getD i default).start = (cs.getD i default).start) ∧
    (∀ i, i + 1 < cs.length →
      (0 < (cs.getD (i + 1) default).start - (cs.getD i default).stop →
        (cs.getD (i + 1) default).start - (cs.getD i default).stop < g →
        ((enforce_min_gap g cs).getD i default).stop = (cs.getD (i + 1) default).start - g) ∧
      (¬(0 < (cs.getD (i + 1) default).start - (cs.getD i default).stop ∧
          (cs.getD (i + 1) default).start - (cs.getD i default).stop < g) →
        ((enforce_min_gap g cs).getD i default).stop = (cs.getD i default).stop)) ∧
    (cs ≠ [] → ((enforce_min_gap g cs).getD (cs.length - 1) default).stop
        = (cs.getD (cs.length - 1) default).stop) := by
  refine ⟨enforce_min_gap_length g cs, fun i => (enforce_min_gap_start_text g cs i).1,
    fun i h => ⟨fun hpos hlt => ?_, fun hneg => ?_⟩, enforce_min_gap_last_stop g cs⟩
  · rw [enforce_min_gap_stop_eq g cs i h, if_pos ⟨hlt, hpos⟩]
  · rw [enforce_min_gap_stop_eq g cs i h, if_neg (fun hc => hneg ⟨hc.2, hc.1⟩)]

/-- Witness for C7 amended: a 0.01 s gap (positive, below the 0.1 s
minimum) is widened by pulling the earlier cue's end back to
`later.start − 0.1`, and the later cue's start stays put. -/
theorem C7_amended_gap_enforcement_witness :
    ((enforce_min_gap min_gap [⟨0, 5, "a"⟩, ⟨501/100, 8, "b"⟩]).getD 0 default).stop
      = (([⟨0, 5, "a"⟩, ⟨501/100, 8, "b"⟩] : List Cue).getD 1 default).start - min_gap ∧
    ((enforce_min_gap min_gap [⟨0, 5, "a"⟩, ⟨501/100, 8, "b"⟩]).getD 1 default).start
      = (([⟨0, 5, "a"⟩, ⟨501/100, 8, "b"⟩] : List Cue).getD 1 default).start := by
  have h := C7_amended_gap_enforcement min_gap [⟨0, 5, "a"⟩, ⟨501/100, 8, "b"⟩]
  refine ⟨(h.2.2.1 0 (by norm_num)).1 (by norm_num [min_gap]) (by norm_num [min_gap]),
    h.2.1 1⟩

/-- C8 counterexample: starting a render on a global config that has no
`gpu_encoders` key mutates that very config — `render_project` writes
the mode override in place and the `VideoCreator` constructor's GPU
detection writes the `gpu_encoders` key, so the configuration the
running render reads is not the snapshot that existed at render
start. -/
theorem C8_counterexample :
    (render_start { gpu_encoders := none, project_type := "montage" } "slideshow"
        (some ["NVIDIA NVENC (h264_nvenc)"])).1
      ≠ { gpu_encoders := none, project_type := "montage" } := by
  decide

/-- C8 amended: the engine configuration is one shared mutable global:
`render_project` writes the mode into it in place, and the GPU detection
run by the `VideoCreator` constructor writes the detected encoder list
into the same global whenever the encoder probe parses; only a probe
failure leaves the config untouched.  No copy is taken at render
start. -/
theorem C8_amended_config_mutated_in_place (st : EngineConfigState) (mode : String)
    (found : List String) :
    (render_start st mode (some found)).1
      = { gpu_encoders := some found, project_type := mode } ∧
    (videoCreator_init st (some found)).1 = { st with gpu_encoders := some found } ∧
    (videoCreator_init st none).1 = st ∧
    render_project_configure st mode = { st with project_type := mode } := by
  exact ⟨rfl, rfl, rfl, rfl⟩

end VideoStove
